import Mathlib

/-!
# Verification of `speculatively.Do`

A shallow embedding of the Go package `speculatively`, which races
speculative attempts of a single task, launching one additional attempt
per `patience` interval until the first attempt completes or the caller's
context is done.

The embedding models the select loop of `Do` as a function over a trace of
the events the loop observes, in observation order:

* `Event.result r`  — a value arrived on the shared `out` channel,
* `Event.ctxDone`   — the context's `Done` channel fired,
* `Event.tick`      — the patience ticker fired.

Machine-level time is abstracted away: a trace records which select case
won each iteration, which is exactly the information the loop's control
flow depends on.  Go `error` values are modelled as `Option E` with `none`
for `nil`; the generic result type is `T` and `zero : T` stands for Go's
`var zero T` (`nil` in the non-generic variant).

`time.NewTicker(d)` panics when `d ≤ 0` ("non-positive interval for
NewTicker"); the model records this in the `panicked` field, since the
ticker is created before the loop but after attempt 0 is launched.
-/

namespace Speculatively

/-- The pair a thunk returns, i.e. Go's `type result struct { val T; err error }`.
`err = none` is a `nil` error. -/
structure Result (T E : Type) where
  val : T
  err : Option E
deriving Repr, DecidableEq

/-- One event observed by the `select` statement in `Do`'s wait loop. -/
inductive Event (T E : Type) where
  | result : Result T E → Event T E
  | ctxDone : Event T E
  | tick : Event T E
deriving Repr, DecidableEq

/-- A Go `context.Context`, identified by the cancellation scope it carries.
Only the identity of the scope matters to the executor: every attempt must
receive the single scope derived by `Do`. -/
structure Ctx where
  id : Nat
deriving Repr, DecidableEq

/-- `context.WithCancel(parent)`: derives a fresh child cancellation scope
owned by the caller of `WithCancel`. -/
def withCancel (parent : Ctx) : Ctx :=
  ⟨parent.id + 1⟩

/-- Receiver side of the unbuffered `out` channel, as an attempt's
non-blocking send sees it: either `Do` is blocked receiving (`listening`),
or no receiver will take the value (`Do` already consumed a result and
returned, or is between selects). -/
inductive ChanState where
  | listening
  | notListening
deriving Repr, DecidableEq

/-- The `select { case out <- r: default: }` in `runThunk`: deliver the
result only when a receiver is waiting, otherwise drop it; in either case
return immediately (never block).  A successful delivery is consumed by
`Do`'s single receive, after which no receiver remains. -/
def trySend {T E : Type} (st : ChanState) (r : Result T E) :
    ChanState × Option (Result T E) :=
  match st with
  | ChanState.listening => (ChanState.notListening, some r)
  | ChanState.notListening => (ChanState.notListening, none)

/-- `runThunk(ctx, thunk, out)`: run the thunk to completion with the given
context, then try a non-blocking send of exactly the pair it returned. -/
def runThunk {T E : Type} (thunk : Ctx → T × Option E) (ctx : Ctx)
    (st : ChanState) : ChanState × Option (Result T E) :=
  let v := thunk ctx
  trySend st ⟨v.1, v.2⟩

/-- Fold a sequence of completing attempts' non-blocking sends through the
channel state, counting how many deliveries succeed. -/
def sendAll {T E : Type} (st : ChanState) : List (Result T E) → ChanState × Nat
  | [] => (st, 0)
  | r :: rs =>
    let s1 := trySend st r
    let s2 := sendAll s1.1 rs
    (s2.1, (if s1.2.isSome then 1 else 0) + s2.2)

/-- The wait loop of the ticker-based `Do` (`for step := 1; ; step++ { select … }`),
run over a trace of observed events.  Returns the `(val, err)` pair `Do`
returns (`none` while still blocked after the trace ends), together with
the list of contexts passed to the `go runThunk` launches made inside the
loop (one per tick, each receiving the loop's single context `ctx`).

* a result `r` on `out`  → `return r.val, r.err`;
* `ctx.Done()` fired     → `return zero, ctx.Err()` — the derived scope is
  canceled only by the deferred `cancel`, so inside the loop its error is
  the input context's own error `ctxErr`;
* a ticker tick          → `go runThunk(ctx, thunk, out)` and loop. -/
def doLoop {T E : Type} (ctx : Ctx) (zero : T) (ctxErr : E) :
    List (Event T E) → Option (T × Option E) × List Ctx
  | [] => (none, [])
  | Event.result r :: _ => (some (r.val, r.err), [])
  | Event.ctxDone :: _ => (some (zero, some ctxErr), [])
  | Event.tick :: rest =>
    let p := doLoop ctx zero ctxErr rest
    (p.1, ctx :: p.2)

/-- Everything observable about one execution of the ticker-based `Do`. -/
structure DoRun (T E : Type) where
  /-- `true` when `time.NewTicker(patience)` panicked (`patience ≤ 0`). -/
  panicked : Bool
  /-- The `(value, error)` pair `Do` returned; `none` if it has not returned. -/
  ret : Option (T × Option E)
  /-- Contexts passed to the `go runThunk` launches, in launch order. -/
  launches : List Ctx
  /-- Whether the deferred `cancel()` of the derived scope has run. -/
  cancelRan : Bool
deriving Repr, DecidableEq

/-- The ticker-based `Do(ctx, patience, thunk)` (current `speculatively.go`
and its generic variant; the generic one writes `var zero T`, the
non-generic one returns `nil`, both abstracted by `zero`):

```
ctx, cancel := context.WithCancel(ctx)
defer cancel()
out := make(chan result)
go runThunk(ctx, thunk, out)          -- attempt 0, before anything else
ticker := time.NewTicker(patience)    -- panics when patience ≤ 0
defer ticker.Stop()
for step := 1; ; step++ { select … }
```

`patience` is a `time.Duration` (an integer number of nanoseconds).  On the
panic path the deferred `cancel` still runs and attempt 0 was already
launched; on a normal path `cancel` runs exactly when the loop returns. -/
def Do {T E : Type} (parent : Ctx) (patience : Int) (zero : T) (ctxErr : E)
    (trace : List (Event T E)) : DoRun T E :=
  let ctx := withCancel parent
  if patience ≤ 0 then
    { panicked := true, ret := none, launches := [ctx], cancelRan := true }
  else
    let r := doLoop ctx zero ctxErr trace
    { panicked := false, ret := r.1, launches := ctx :: r.2,
      cancelRan := r.1.isSome }

/-- The wait of the older, done-channel `Do`: the main goroutine blocks
solely on `r := <-out`; a helper goroutine launches one attempt per
`time.After(patience)` until `done` is closed.  No select case observes
`ctx.Done()`, so a context-done event changes nothing and the executor
keeps waiting (and keeps launching on later ticks). -/
def oldLoop {T E : Type} (ctx : Ctx) :
    List (Event T E) → Option (T × Option E) × List Ctx
  | [] => (none, [])
  | Event.result r :: _ => (some (r.val, r.err), [])
  | Event.ctxDone :: rest => oldLoop ctx rest
  | Event.tick :: rest =>
    let p := oldLoop ctx rest
    (p.1, ctx :: p.2)

/-- The older, done-channel `Do(ctx, patience, thunk)`:

```
out := make(chan result)
done := make(chan struct{})
defer close(done)
go runThunk(ctx, thunk, out, done)    -- attempt 0, with the caller's ctx
go func() { for { select { case <-time.After(patience): go runThunk(…)
                           case <-done: return } } }()
r := <-out
return r.val, r.err
```

It derives no child scope (attempts get the caller's context directly) and
creates no ticker, so a non-positive `patience` does not panic
(`time.After` accepts any duration). -/
def oldDo {T E : Type} (parent : Ctx) (patience : Int)
    (trace : List (Event T E)) : Option (T × Option E) × List Ctx :=
  let r := oldLoop parent trace
  (r.1, parent :: r.2)

/-! ## Helper lemmas about the loops -/

/-- Leading ticks: each one records a launch with the loop's context and
the loop continues on the rest of the trace. -/
lemma doLoop_replicate_tick {T E : Type} (ctx : Ctx) (zero : T) (ctxErr : E)
    (n : Nat) (tr : List (Event T E)) :
    doLoop ctx zero ctxErr (List.replicate n Event.tick ++ tr) =
      ((doLoop ctx zero ctxErr tr).1,
        List.replicate n ctx ++ (doLoop ctx zero ctxErr tr).2) := by
  induction n with
  | zero => simp [doLoop]
  | succ k ih => simp [List.replicate_succ, doLoop, ih]

/-- A trace consisting only of ticks never makes the loop return. -/
lemma doLoop_all_ticks {T E : Type} (ctx : Ctx) (zero : T) (ctxErr : E)
    (n : Nat) :
    doLoop ctx zero ctxErr (List.replicate n (Event.tick (T := T) (E := E))) =
      (none, List.replicate n ctx) := by
  have h := doLoop_replicate_tick ctx zero ctxErr n ([] : List (Event T E))
  simpa [doLoop] using h

/-- Every launch recorded by the loop carries the loop's single context. -/
lemma doLoop_launches {T E : Type} (ctx : Ctx) (zero : T) (ctxErr : E)
    (tr : List (Event T E)) :
    (doLoop ctx zero ctxErr tr).2 =
      List.replicate (doLoop ctx zero ctxErr tr).2.length ctx := by
  induction tr with
  | nil => simp [doLoop]
  | cons e rest ih =>
    cases e with
    | result r => simp [doLoop]
    | ctxDone => simp [doLoop]
    | tick =>
      simp only [doLoop, List.length_cons, List.replicate_succ]
      rw [← ih]

/-- At most one non-blocking send ever succeeds: the first success consumes
the only receive `Do` performs, leaving no receiver for later sends. -/
lemma sendAll_le_one {T E : Type} (st : ChanState) (rs : List (Result T E)) :
    (sendAll st rs).2 ≤ 1 := by
  induction rs generalizing st with
  | nil => simp [sendAll]
  | cons r rest ih =>
    cases st with
    | listening =>
      have hzero : ∀ l : List (Result T E),
          (sendAll ChanState.notListening l).2 = 0 := by
        intro l
        induction l with
        | nil => simp [sendAll]
        | cons x xs ihx => simp [sendAll, trySend, ihx]
      simp [sendAll, trySend, hzero]
    | notListening =>
      simpa [sendAll, trySend] using ih ChanState.notListening

/-- Every launch recorded by `Do` carries the single derived scope
`withCancel parent` — the launches list is constant. -/
lemma Do_launches_all_derived {T E : Type} (parent : Ctx) (patience : Int)
    (zero : T) (ctxErr : E) (trace : List (Event T E)) :
    (Do parent patience zero ctxErr trace).launches =
      List.replicate (Do parent patience zero ctxErr trace).launches.length
        (withCancel parent) := by
  by_cases h : patience ≤ 0
  · simp [Do, h]
  · have hd := doLoop_launches (withCancel parent) zero ctxErr trace
    simp only [Do, if_neg h, List.length_cons, List.replicate_succ]
    exact congrArg (List.cons (withCancel parent)) hd

/-! ## Claim theorems -/

/-- C1: when an attempt's result is the first event the wait loop observes,
`Do` returns exactly that attempt's value and error, unchanged — and the
result an attempt delivers is exactly the pair its thunk returned, so the
task's error passes through verbatim with no executor-synthesized error. -/
theorem C1_first_result_passed_through {T E : Type} (parent : Ctx)
    (patience : Int) (hp : 0 < patience) (zero : T) (ctxErr : E)
    (r : Result T E) (rest : List (Event T E))
    (thunk : Ctx → T × Option E) (c : Ctx) :
    (Do parent patience zero ctxErr (Event.result r :: rest)).ret =
      some (r.val, r.err) ∧
    (runThunk thunk c ChanState.listening).2 =
      some ⟨(thunk c).1, (thunk c).2⟩ := by
  constructor
  · simp [Do, not_le.mpr hp, doLoop]
  · simp [runThunk, trySend]

/-- C1 witness: a concrete run whose first observed event is the result
`(5, error 3)`; `Do` returns it unchanged. -/
theorem C1_witness :
    (Do (T := Nat) (E := Nat) ⟨0⟩ 1 0 7 [Event.result ⟨5, some 3⟩]).ret =
      some (5, some 3) ∧
    (runThunk (fun _ => ((5 : Nat), (some 3 : Option Nat))) ⟨1⟩
        ChanState.listening).2 = some ⟨5, some 3⟩ :=
  C1_first_result_passed_through ⟨0⟩ 1 (by decide) 0 7 ⟨5, some 3⟩ []
    (fun _ => (5, some 3)) ⟨1⟩

/-- C2: the race is decided only by completion order: if the first result
to arrive carries a non-nil error, `Do` returns that value and error, no
matter what later events (including later successful results) follow. -/
theorem C2_fast_failure_beats_slow_success {T E : Type} (parent : Ctx)
    (patience : Int) (hp : 0 < patience) (zero : T) (ctxErr : E)
    (N : Nat) (v : T) (e : E) (rest : List (Event T E)) :
    (Do parent patience zero ctxErr
        (List.replicate N Event.tick ++ Event.result ⟨v, some e⟩ :: rest)).ret =
      some (v, some e) := by
  simp [Do, not_le.mpr hp, doLoop_replicate_tick, doLoop]

/-- C2 witness: attempt 0 fails first (value 1, error 9); a later attempt's
success `(2, nil)` is still pending behind it in the trace; `Do` returns
the fast failure. -/
theorem C2_witness :
    (Do (T := Nat) (E := Nat) ⟨0⟩ 1 0 7
        (List.replicate 1 Event.tick ++
          Event.result ⟨1, some 9⟩ :: [Event.result ⟨2, none⟩])).ret =
      some (1, some 9) :=
  C2_fast_failure_beats_slow_success ⟨0⟩ 1 (by decide) 0 7 1 1 9
    [Event.result ⟨2, none⟩]

/-- C3: when the context becomes done before any attempt delivers a result
(any number of ticks may precede), `Do` returns the zero value of `T`
together with the context's own error, passed through verbatim. -/
theorem C3_ctx_error_passed_through {T E : Type} (parent : Ctx)
    (patience : Int) (hp : 0 < patience) (zero : T) (ctxErr : E)
    (N : Nat) (rest : List (Event T E)) :
    (Do parent patience zero ctxErr
        (List.replicate N Event.tick ++ Event.ctxDone :: rest)).ret =
      some (zero, some ctxErr) := by
  simp [Do, not_le.mpr hp, doLoop_replicate_tick, doLoop]

/-- C3 witness: context expires (error 7) after two ticks, before any
result; `Do` returns `(0, some 7)` — zero value plus the context error. -/
theorem C3_witness :
    (Do (T := Nat) (E := Nat) ⟨0⟩ 1 0 7
        (List.replicate 2 Event.tick ++ [Event.ctxDone])).ret =
      some (0, some 7) :=
  C3_ctx_error_passed_through ⟨0⟩ 1 (by decide) 0 7 2 []

/-- C4 counterexample: at `patience = 0` the ticker-based `Do` panics
(`time.NewTicker` rejects non-positive intervals), refuting the claim that
`Do` accepts a zero patience without panicking. -/
theorem C4_counterexample :
    ¬ (Do (T := Nat) (E := Nat) ⟨0⟩ 0 0 7 []).panicked = false := by
  decide

/-- C4 amended: `Do` panics exactly when `patience ≤ 0`. Every positive
patience is accepted without panicking; a zero patience makes
`time.NewTicker` panic instead of fanning out immediately. -/
theorem C4_amended_panics_iff_nonpositive {T E : Type} (parent : Ctx)
    (patience : Int) (zero : T) (ctxErr : E) (trace : List (Event T E)) :
    (Do parent patience zero ctxErr trace).panicked = decide (patience ≤ 0) := by
  by_cases h : patience ≤ 0 <;> simp [Do, h]

/-- C5: attempt 0 starts before the loop and each tick starts exactly one
more attempt, so when the first result arrives after `N` elapsed patience
intervals, exactly `N + 1` attempts have been launched. -/
theorem C5_launch_cadence {T E : Type} (parent : Ctx) (patience : Int)
    (hp : 0 < patience) (zero : T) (ctxErr : E) (N : Nat) (r : Result T E)
    (rest : List (Event T E)) :
    (Do parent patience zero ctxErr
        (List.replicate N Event.tick ++ Event.result r :: rest)).launches.length =
      N + 1 := by
  simp [Do, not_le.mpr hp, doLoop_replicate_tick, doLoop]

/-- C5 witness: first attempt outlasts two patience intervals, then a
result arrives: exactly 3 attempts were launched. -/
theorem C5_witness :
    (Do (T := Nat) (E := Nat) ⟨0⟩ 1 0 7
        (List.replicate 2 Event.tick ++
          Event.result ⟨1, none⟩ :: [])).launches.length = 2 + 1 :=
  C5_launch_cadence ⟨0⟩ 1 (by decide) 0 7 2 ⟨1, none⟩ []

/-- C6: every launched attempt receives the one scope derived from the
input context (the launches list is constant at `withCancel parent`), and
the deferred `cancel` of that scope has run exactly when `Do` has returned
(or panicked) — so by the time `Do` returns, every outstanding attempt has
been signaled to stop. -/
theorem C6_single_scope_canceled_on_return {T E : Type} (parent : Ctx)
    (patience : Int) (zero : T) (ctxErr : E) (trace : List (Event T E)) :
    (Do parent patience zero ctxErr trace).launches =
      List.replicate (Do parent patience zero ctxErr trace).launches.length
        (withCancel parent) ∧
    (Do parent patience zero ctxErr trace).cancelRan =
      ((Do parent patience zero ctxErr trace).panicked ||
        (Do parent patience zero ctxErr trace).ret.isSome) := by
  refine ⟨Do_launches_all_derived parent patience zero ctxErr trace, ?_⟩
  by_cases h : patience ≤ 0 <;> simp [Do, h]

/-- C7: delivery discipline of the shared channel — (i) at most one
non-blocking send ever succeeds, however many attempts complete and in
whatever state they find the channel; (ii) an attempt completing when no
receiver remains drops its result and leaves the channel state unchanged
(it never blocks); (iii) events after the winning result cannot alter the
pair `Do` returns. -/
theorem C7_delivery_discipline {T E : Type} (st : ChanState)
    (rs : List (Result T E)) (r : Result T E) (parent : Ctx)
    (patience : Int) (zero : T) (ctxErr : E) (n : Nat) (w : Result T E)
    (rest : List (Event T E)) :
    (sendAll st rs).2 ≤ 1 ∧
    trySend ChanState.notListening r = (ChanState.notListening, none) ∧
    (Do parent patience zero ctxErr
        (List.replicate n Event.tick ++ Event.result w :: rest)).ret =
      (Do parent patience zero ctxErr
        (List.replicate n Event.tick ++ [Event.result w])).ret := by
  refine ⟨sendAll_le_one st rs, rfl, ?_⟩
  by_cases h : patience ≤ 0
  · simp [Do, h]
  · simp [Do, h, doLoop_replicate_tick, doLoop]

/-- C8: the wait loop has no terminal attempt count — on a trace of ticks
alone (context live, no result yet) `Do` has not returned, and for every
`n` there is such an execution in which more than `n` attempts have been
launched. -/
theorem C8_unbounded_attempts {T E : Type} (parent : Ctx) (zero : T)
    (ctxErr : E) (n : Nat) :
    (Do parent 1 zero ctxErr
        (List.replicate n (Event.tick (T := T) (E := E)))).ret = none ∧
    n < (Do parent 1 zero ctxErr
          (List.replicate (n + 1) (Event.tick (T := T) (E := E)))).launches.length := by
  constructor
  · simp [Do, doLoop_all_ticks, (by norm_num : ¬ (1 : Int) ≤ 0)]
  · simp [Do, doLoop_all_ticks, (by norm_num : ¬ (1 : Int) ≤ 0)]
    omega

/-- C9: attempt 0 is launched unconditionally, before any event is
checked: on every trace — even one whose first event is context-done, and
even on the panic path — at least one attempt has been launched, and the
first launch carries the scope derived from the (possibly already
canceled) input context. -/
theorem C9_task_runs_at_least_once {T E : Type} (parent : Ctx)
    (patience : Int) (zero : T) (ctxErr : E) (trace : List (Event T E)) :
    1 ≤ (Do parent patience zero ctxErr trace).launches.length ∧
    (Do parent patience zero ctxErr trace).launches.head? =
      some (withCancel parent) := by
  by_cases h : patience ≤ 0 <;> simp [Do, h]

/-- C10 counterexample: when the context becomes done before any result,
the ticker-based `Do` returns the zero value with the context's error,
while the older done-channel `Do` does not return at all (nothing in it
selects on `ctx.Done()`), so the two versions are not behaviorally
equivalent. -/
theorem C10_counterexample :
    (Do (T := Nat) (E := Nat) ⟨0⟩ 1 0 7 [Event.ctxDone]).ret ≠
      (oldDo (T := Nat) (E := Nat) ⟨0⟩ 1 [Event.ctxDone]).1 := by
  decide

/-- C10 amended: with positive patience the two versions agree on every
execution in which the context does not become done during the wait: on a
trace free of context-done events they return the same `(value, error)`
pair (both still blocked if no result ever arrives). They differ exactly
when the context becomes done before a result: only the ticker version
then returns the context's error. -/
theorem C10_amended_equivalence_without_ctx_done {T E : Type} (parent : Ctx)
    (patience : Int) (hp : 0 < patience) (zero : T) (ctxErr : E)
    (trace : List (Event T E)) (h : Event.ctxDone ∉ trace) :
    (Do parent patience zero ctxErr trace).ret =
      (oldDo parent patience trace).1 := by
  have key : ∀ tr : List (Event T E), Event.ctxDone ∉ tr →
      (doLoop (withCancel parent) zero ctxErr tr).1 = (oldLoop parent tr).1 := by
    intro tr
    induction tr with
    | nil => intro _; rfl
    | cons e rest ih =>
      intro hmem
      cases e with
      | result r => rfl
      | ctxDone => exact absurd (List.mem_cons_self _ _) hmem
      | tick =>
        have hr := ih (fun hx => hmem (List.mem_cons_of_mem _ hx))
        simpa [doLoop, oldLoop] using hr
  simp only [Do, if_neg (not_le.mpr hp), oldDo]
  exact key trace h

/-- C10 amended witness: a context-done-free run (one tick, then a
result); both versions return `(4, nil)`. -/
theorem C10_witness :
    (Do (T := Nat) (E := Nat) ⟨0⟩ 1 0 7
        [Event.tick, Event.result ⟨4, none⟩]).ret =
      (oldDo (T := Nat) (E := Nat) ⟨0⟩ 1
        [Event.tick, Event.result ⟨4, none⟩]).1 :=
  C10_amended_equivalence_without_ctx_done ⟨0⟩ 1 (by decide) 0 7
    [Event.tick, Event.result ⟨4, none⟩] (by decide)

end Speculatively
